import Mathlib

/-!
Shallow embedding of `src/lyrics.py` (Song-Lyrical-Analysis).

The program builds word histograms from song lyrics.  Python dictionaries
(and `collections.Counter`) are modelled as insertion-ordered association
lists `List (String × Int)` with unique keys; mutation of a dict parameter
is modelled by returning its updated value.  Network calls
(`urllib.request.urlopen`) are modelled by an oracle value of type
`NetResult` describing the outcome of the request; HTML parsing and string
normalisation performed by external libraries (BeautifulSoup, `re`,
`str.translate` / `str.lower` / `str.split`) are out of scope, so a fetched
song page is modelled by the token sequence those library calls produce.
-/

namespace Lyrics

/-- A Python dict / Counter mapping words to integer counts, as an
insertion-ordered association list. -/
abbrev Hist := List (String × Int)

/-- Dictionary lookup: the value at the first entry whose key matches, if any
(`d[k]` / `d.get(k)`). -/
def lookup (d : Hist) (k : String) : Option Int :=
  (d.find? (fun p => p.1 == k)).map Prod.snd

/-- Counter-style read with default 0 (`collections.Counter` returns 0 for a
missing key). -/
def getCount (d : Hist) (k : String) : Int :=
  (lookup d k).getD 0

/-- Dictionary assignment `d[k] = v`: replace the value at an existing key in
place, else append a new entry at the end (Python dict insertion order). -/
def setKey : Hist → String → Int → Hist
  | [], k, v => [(k, v)]
  | (k0, v0) :: rest, k, v =>
      if k0 == k then (k, v) :: rest else (k0, v0) :: setKey rest k v

/-- The keys of a dictionary, in insertion order. -/
def keys (d : Hist) : List String :=
  d.map Prod.fst

/-- Well-formedness of a Python dict: its keys are pairwise distinct. -/
def NoDupKeys (d : Hist) : Prop :=
  (keys d).Nodup

/-- The `stop_words` list of `remove_common_words`, transcribed verbatim from
the source.  The source has a missing comma between the literals
`'youll' 'yours'`, which Python concatenates into the single word
`"youllyours"`, and lists `"three"` twice. -/
def stop_words : List String :=
  ["a", "about", "above", "across", "after", "afterwards", "again", "against", "all", "almost",
   "alone", "along", "already", "also", "although", "always", "am", "among", "amongst", "amoungst",
   "amount", "an", "and", "another", "any", "anyhow", "anyone", "anything", "anyway", "anywhere",
   "are", "around", "as", "at", "back", "be", "became", "because", "become", "becomes", "becoming",
   "been", "before", "beforehand", "behind", "being", "below", "beside", "besides", "between",
   "beyond", "bill", "both", "bottom", "but", "by", "call", "can", "cannot", "cant", "co", "computer",
   "con", "could", "couldnt", "cry", "de", "describe", "detail", "did", "do", "done", "dont", "down",
   "due", "during", "each", "eg", "eight", "either", "eleven", "else", "elsewhere", "empty", "enough",
   "etc", "even", "ever", "every", "everyone", "everything", "everywhere", "except", "few", "fifteen",
   "fifty", "fill", "find", "fire", "first", "five", "for", "former", "formerly", "forty", "found",
   "four", "from", "front", "full", "further", "get", "give", "go", "had", "has", "hasnt", "have",
   "he", "hence", "her", "here", "hereafter", "hereby", "herein", "hereupon", "hers", "herself", "him",
   "himself", "his", "how", "however", "hundred", "i", "ie", "if", "ill", "in", "inc", "indeed",
   "interest", "into", "im", "is", "it", "its", "itself", "keep", "last", "latter", "latterly",
   "least", "less", "like", "ltd", "made", "many", "may", "me", "meanwhile", "might", "mill", "mine",
   "more", "moreover", "most", "mostly", "move", "much", "must", "my", "myself", "name", "namely",
   "neither", "never", "nevertheless", "next", "nine", "no", "nobody", "none", "noone", "nor", "not",
   "nothing", "now", "nowhere", "of", "off", "often", "on", "once", "one", "only", "onto", "or",
   "other", "others", "otherwise", "our", "ours", "ourselves", "out", "over", "own", "part", "per",
   "perhaps", "please", "put", "rather", "re", "s", "same", "see", "seem", "seemed", "seeming",
   "seems", "serious", "several", "she", "should", "show", "side", "since", "sincere", "six", "sixty",
   "so", "some", "somehow", "someone", "something", "sometime", "sometimes", "somewhere", "still",
   "such", "system", "take", "ten", "than", "that", "thats", "the", "their", "them", "themselves",
   "then", "thence", "there", "theres", "thereafter", "thereby", "therefore", "therein", "thereupon",
   "these", "they", "thick", "thin", "third", "this", "those", "though", "three", "three", "through",
   "throughout", "thru", "thus", "to", "together", "too", "top", "toward", "towards", "twelve",
   "twenty", "two", "un", "under", "until", "up", "upon", "us", "very", "via", "was", "we", "well",
   "were", "what", "whatever", "when", "whence", "whenever", "where", "whereafter", "whereas",
   "whereby", "wherein", "whereupon", "wherever", "whether", "which", "while", "whither", "who",
   "whoever", "whole", "whom", "whose", "why", "will", "with", "within", "without", "would", "yet",
   "you", "your", "youre", "youllyours", "yourself", "yourselves"]

/-- `remove_common_words(word_list)`:
`[w for w in word_list if w not in stop_words]`. -/
def remove_common_words (word_list : List String) : List String :=
  word_list.filter (fun w => !(stop_words.contains w))

/-- The loop body of `add_counts_to_dict`: `data_dict[word] += 1`
(`data_dict` is a Counter, so a missing key reads as 0). -/
def counter_incr (d : Hist) (word : String) : Hist :=
  setKey d word (getCount d word + 1)

/-- `add_counts_to_dict(data_set, data_dict)`: filter the words through
`remove_common_words`, then `data_dict[word] += 1` for each word. -/
def add_counts_to_dict (data_set : List String) (data_dict : Hist) : Hist :=
  (remove_common_words data_set).foldl counter_incr data_dict

/-- The loop body of `add_dict`: `source[key] += supplement[key]` when `key`
is already in `source`, else `source[key] = supplement[key]`.  `kv` is the
key together with `supplement[key]`. -/
def add_dict_step (src : Hist) (kv : String × Int) : Hist :=
  match lookup src kv.1 with
  | some sv => setKey src kv.1 (sv + kv.2)
  | none => setKey src kv.1 kv.2

/-- `add_dict(source, supplement)`: `for key in supplement`, merge
`supplement[key]` into `source`.  Iterating a Python dict yields each key
exactly once paired with its value, so the loop folds over the entries of
`supplement`.  Both mutable parameters are returned; the loop assigns only
to `source`, so the second component is `supplement` itself. -/
def add_dict (source supplement : Hist) : Hist × Hist :=
  (supplement.foldl add_dict_step source, supplement)

/-- Outcome of a `urllib.request.urlopen` call, supplied as an oracle: either
a successful response carrying the parsed payload, an `HTTPError` with its
status code, or a `URLError`. -/
inductive NetResult (α : Type) where
  | success : α → NetResult α
  | httpError : Nat → NetResult α
  | urlError : NetResult α

/-- `send_request(url, access_token, is_api_request)`: the `try` block reads
the response, the `except HTTPError` / `except URLError` handlers print a
message and leave `result = None`, and the function returns the result or
`None`. -/
def send_request {α : Type} : NetResult α → Option α
  | NetResult.success a => some a
  | NetResult.httpError _ => none
  | NetResult.urlError => none

/-- `search(term, client_access_token)`: starts from `results = []`, requests
pages 1 through 5 (`for page in range(1,6)`), and appends each response that
is not `None` (`if response: results.append(response)`).  The per-page
outcomes are supplied by the oracle `fetch`. -/
def search {α : Type} (fetch : Nat → NetResult α) : List α :=
  (List.range' 1 5).foldl
    (fun results page =>
      match send_request (fetch page) with
      | some response => results ++ [response]
      | none => results)
    []

/-- One hit of a Genius search result: the song URL and the name of the
primary artist (`x['result']['url']`, `x['result']['primary_artist']['name']`). -/
structure Hit where
  url : String
  primary_artist_name : String
  deriving DecidableEq

/-- Python `str.lower()`: lowercase the string character by character. -/
def str_lower (s : String) : String :=
  String.mk (s.data.map Char.toLower)

/-- The hit filter of `collect_genius_song_data`:
`[x for x in hits if x['result']['primary_artist']['name'].lower() == artist.lower()]`. -/
def filter_hits (hits : List Hit) (artist_name : String) : List Hit :=
  hits.filter (fun x => str_lower x.primary_artist_name == str_lower artist_name)

/-- A fetched song page after the external library calls of `parse_lyrics`:
script tags stripped, the lyric container's text extracted and lowercased,
bracketed annotations removed, punctuation stripped, and the text split on
whitespace.  `tokens` is the resulting word sequence (with repetitions). -/
structure SongPage where
  tokens : List String

/-- The per-song processing of `parse_lyrics` once the page is fetched:
`lyric_set = set(lyrics.split())` followed by
`add_counts_to_dict(lyric_set, lyric_dict)`.  A Python set holds each
distinct word once; `dedup` is its deterministic stand-in. -/
def process_song (page : SongPage) (lyric_dict : Hist) : Hist :=
  add_counts_to_dict page.tokens.dedup lyric_dict

/-- The body of the per-hit loop of `parse_lyrics`:
`html = send_request(result['result']['url'], ..., False)` followed
immediately by `[h.extract() for h in html('script')]` with no `None` check.
When the request failed, `html` is `None` and `html('script')` raises
`TypeError: 'NoneType' object is not callable`; the raised exception is
modelled by `Except.error`. -/
def parse_song (fetched : NetResult SongPage) (lyric_dict : Hist) :
    Except String Hist :=
  match send_request fetched with
  | none => Except.error "TypeError: NoneType object is not callable"
  | some page => Except.ok (process_song page lyric_dict)

/-- `Counter(counts).most_common(n)`: the entries sorted by count in
descending order (ties keep insertion order: Python's sort is stable),
truncated to the first `n`. -/
def most_common (counts : Hist) (n : Nat) : Hist :=
  (counts.mergeSort (fun a b => b.2 ≤ a.2)).take n

/-- The per-artist summary record built by `store_results`:
`{ 'title': ..., 'genre': ..., 'data': ..., 'uniques': ... }` where `data`
is `most_common(100)` reversed and `uniques` is `len(artist_counts)`. -/
structure ArtistSummary where
  title : String
  genre : String
  data : Hist
  uniques : Nat

/-- The per-genre summary record built by `store_results`:
`{ 'title': ..., 'data': ..., 'uniques': ... }`. -/
structure GenreSummary where
  title : String
  data : Hist
  uniques : Nat

/-- The artist loop body of `store_results`: collect
`Counter(artist_counts).most_common(100)`, reverse it, and record the
number of distinct words as `len(artist_counts)`. -/
def store_artist_entry (artist_name artist_genre : String) (artist_counts : Hist) :
    ArtistSummary :=
  { title := artist_name
    genre := artist_genre
    data := (most_common artist_counts 100).reverse
    uniques := artist_counts.length }

/-- The genre loop body of `store_results`: same computation on the genre
histogram. -/
def store_genre_entry (genre : String) (genre_counts : Hist) : GenreSummary :=
  { title := genre
    data := (most_common genre_counts 100).reverse
    uniques := genre_counts.length }

/-- Pointwise merge of two optional counts: the sum on shared keys, the
present count on unshared ones.  `lookup` on a merged dictionary factors
through this operation. -/
def combine : Option Int → Option Int → Option Int
  | some x, some y => some (x + y)
  | some x, none => some x
  | none, some y => some y
  | none, none => none

/-- All counts stored in a histogram are non-negative. -/
def NonNegCounts (d : Hist) : Prop :=
  ∀ kv ∈ d, 0 ≤ kv.2

/-! ## Basic dictionary lemmas -/

@[simp]
theorem keys_nil : keys [] = [] := rfl

@[simp]
theorem keys_cons (p : String × Int) (d : Hist) :
    keys (p :: d) = p.1 :: keys d := rfl

@[simp]
theorem lookup_nil (k : String) : lookup [] k = none := rfl

theorem lookup_cons (k0 : String) (v0 : Int) (d : Hist) (k : String) :
    lookup ((k0, v0) :: d) k = if k0 = k then some v0 else lookup d k := by
  simp only [lookup, List.find?_cons]
  by_cases h : k0 = k
  · simp [h]
  · have hb : (k0 == k) = false := by simp [h]
    simp [hb, h]

theorem lookup_setKey_self (d : Hist) (k : String) (v : Int) :
    lookup (setKey d k v) k = some v := by
  induction d with
  | nil => simp [setKey, lookup_cons]
  | cons p rest ih =>
    obtain ⟨k0, v0⟩ := p
    by_cases h : k0 = k
    · simp [setKey, h, lookup_cons]
    · simp [setKey, h, lookup_cons, ih]

theorem lookup_setKey_ne (d : Hist) (k : String) (v : Int) (k' : String) (h : k' ≠ k) :
    lookup (setKey d k v) k' = lookup d k' := by
  have h' : ¬ k = k' := fun hh => h hh.symm
  induction d with
  | nil => simp [setKey, lookup_cons, h']
  | cons p rest ih =>
    obtain ⟨k0, v0⟩ := p
    by_cases hk : k0 = k
    · subst hk
      simp [setKey, lookup_cons, h']
    · simp [setKey, hk, lookup_cons, ih]

theorem keys_setKey (d : Hist) (k : String) (v : Int) :
    keys (setKey d k v) = if k ∈ keys d then keys d else keys d ++ [k] := by
  induction d with
  | nil => simp [setKey]
  | cons p rest ih =>
    obtain ⟨k0, v0⟩ := p
    by_cases h : k0 = k
    · subst h
      simp [setKey]
    · have h' : ¬ k = k0 := fun hh => h hh.symm
      by_cases hm : k ∈ keys rest <;>
        simp [setKey, h, ih, hm, h']

theorem mem_keys_setKey (d : Hist) (k : String) (v : Int) (x : String) :
    x ∈ keys (setKey d k v) ↔ x ∈ keys d ∨ x = k := by
  rw [keys_setKey]
  by_cases hm : k ∈ keys d
  · simp only [hm, if_true]
    constructor
    · exact Or.inl
    · rintro (hx | rfl)
      · exact hx
      · exact hm
  · simp [hm]

theorem lookup_eq_none_iff (d : Hist) (k : String) :
    lookup d k = none ↔ k ∉ keys d := by
  induction d with
  | nil => simp
  | cons p rest ih =>
    obtain ⟨k0, v0⟩ := p
    by_cases h : k0 = k
    · simp [lookup_cons, h]
    · simp only [lookup_cons, h, if_false, ih, keys_cons, List.mem_cons]
      constructor
      · rintro hk (rfl | hmem)
        · exact absurd rfl h
        · exact hk hmem
      · intro hk hmem
        exact hk (Or.inr hmem)

theorem lookup_isSome_iff (d : Hist) (k : String) :
    (lookup d k).isSome ↔ k ∈ keys d := by
  rw [← Decidable.not_not (p := k ∈ keys d), ← lookup_eq_none_iff]
  cases lookup d k <;> simp

/-! ## Counter increments -/

theorem getCount_setKey_self (d : Hist) (k : String) (v : Int) :
    getCount (setKey d k v) k = v := by
  simp [getCount, lookup_setKey_self]

theorem getCount_setKey_ne (d : Hist) (k : String) (v : Int) (k' : String)
    (h : k' ≠ k) : getCount (setKey d k v) k' = getCount d k' := by
  simp [getCount, lookup_setKey_ne _ _ _ _ h]

theorem getCount_counter_incr (d : Hist) (w x : String) :
    getCount (counter_incr d w) x = getCount d x + (if w = x then 1 else 0) := by
  by_cases h : w = x
  · subst h
    simp [counter_incr, getCount_setKey_self]
  · simp [counter_incr, getCount_setKey_ne _ _ _ _ (fun hh : x = w => h hh.symm), h]

theorem getCount_foldl_counter_incr (ws : List String) (d : Hist) (x : String) :
    getCount (ws.foldl counter_incr d) x = getCount d x + (ws.count x : Int) := by
  induction ws generalizing d with
  | nil => simp
  | cons a ws ih =>
    rw [List.foldl_cons, ih, getCount_counter_incr, List.count_cons]
    by_cases h : a = x
    · subst h
      simp
      ring
    · have h' : ¬ x = a := fun hh => h hh.symm
      simp [h, h']

theorem getCount_add_counts_to_dict (ws : List String) (d : Hist) (x : String) :
    getCount (add_counts_to_dict ws d) x
      = getCount d x + ((remove_common_words ws).count x : Int) :=
  getCount_foldl_counter_incr _ _ _

theorem count_remove_common_words_dedup_le_one (ts : List String) (x : String) :
    (remove_common_words ts.dedup).count x ≤ 1 := by
  have hsub : (remove_common_words ts.dedup).Sublist ts.dedup :=
    List.filter_sublist _
  exact le_trans (hsub.count_le x)
    (List.nodup_iff_count_le_one.mp (List.nodup_dedup ts) x)

/-! ## Key membership under the two accumulation operations -/

theorem mem_keys_counter_incr (d : Hist) (a x : String) :
    x ∈ keys (counter_incr d a) ↔ x ∈ keys d ∨ x = a :=
  mem_keys_setKey _ _ _ _

theorem mem_keys_foldl_counter_incr (ws : List String) (d : Hist) (x : String)
    (h : x ∈ keys (ws.foldl counter_incr d)) : x ∈ keys d ∨ x ∈ ws := by
  induction ws generalizing d with
  | nil => exact Or.inl h
  | cons a ws ih =>
    rw [List.foldl_cons] at h
    rcases ih _ h with h' | h'
    · rcases (mem_keys_counter_incr _ _ _).mp h' with h'' | rfl
      · exact Or.inl h''
      · exact Or.inr (List.mem_cons_self _ _)
    · exact Or.inr (List.mem_cons_of_mem _ h')

theorem mem_keys_add_dict_step (s : Hist) (kv : String × Int) (x : String) :
    x ∈ keys (add_dict_step s kv) ↔ x ∈ keys s ∨ x = kv.1 := by
  cases h : lookup s kv.1 <;> simp [add_dict_step, h, mem_keys_setKey]

theorem mem_keys_add_dict (s t : Hist) (x : String) :
    x ∈ keys (add_dict s t).1 ↔ x ∈ keys s ∨ x ∈ keys t := by
  induction t generalizing s with
  | nil => simp [add_dict]
  | cons kv t ih =>
    show x ∈ keys (List.foldl add_dict_step (add_dict_step s kv) t) ↔ _
    have := ih (add_dict_step s kv)
    rw [add_dict] at this
    rw [this, mem_keys_add_dict_step]
    simp only [keys_cons, List.mem_cons]
    tauto

/-! ## Merging: `lookup` on a merged dictionary -/

theorem lookup_add_dict_step (s : Hist) (kv : String × Int) (k : String) :
    lookup (add_dict_step s kv) k =
      if kv.1 = k then some ((lookup s kv.1).getD 0 + kv.2) else lookup s k := by
  by_cases h : kv.1 = k
  · subst h
    cases hs : lookup s kv.1 with
    | none => simp [add_dict_step, hs, lookup_setKey_self]
    | some sv => simp [add_dict_step, hs, lookup_setKey_self]
  · have h' : k ≠ kv.1 := fun hh => h hh.symm
    cases hs : lookup s kv.1 <;>
      simp [add_dict_step, hs, lookup_setKey_ne _ _ _ _ h', h]

theorem combine_none_right (a : Option Int) : combine a none = a := by
  cases a <;> rfl

theorem combine_some_right (a : Option Int) (v : Int) :
    combine a (some v) = some (a.getD 0 + v) := by
  cases a <;> simp [combine]

theorem combine_eq_none_iff (a b : Option Int) :
    combine a b = none ↔ a = none ∧ b = none := by
  cases a <;> cases b <;> simp [combine]

theorem combine_comm (a b : Option Int) : combine a b = combine b a := by
  cases a <;> cases b <;> simp [combine, Int.add_comm]

theorem combine_assoc (a b c : Option Int) :
    combine (combine a b) c = combine a (combine b c) := by
  cases a <;> cases b <;> cases c <;> simp [combine, Int.add_assoc]

theorem lookup_add_dict (s t : Hist) (ht : NoDupKeys t) (k : String) :
    lookup (add_dict s t).1 k = combine (lookup s k) (lookup t k) := by
  induction t generalizing s with
  | nil => simp [add_dict, combine_none_right]
  | cons kv t ih =>
    have hcons : kv.1 ∉ keys t ∧ NoDupKeys t := by
      have h := ht
      simp only [NoDupKeys, keys_cons, List.nodup_cons] at h
      exact h
    show lookup (List.foldl add_dict_step (add_dict_step s kv) t) k = _
    have h1 := ih (add_dict_step s kv) hcons.2
    rw [add_dict] at h1
    rw [h1, lookup_add_dict_step]
    by_cases h : kv.1 = k
    · subst h
      rw [(lookup_eq_none_iff t kv.1).mpr hcons.1, combine_none_right, lookup_cons]
      simp [combine_some_right]
    · rw [lookup_cons]
      simp [h]

theorem noDupKeys_setKey (d : Hist) (k : String) (v : Int) (h : NoDupKeys d) :
    NoDupKeys (setKey d k v) := by
  unfold NoDupKeys at h ⊢
  rw [keys_setKey]
  by_cases hm : k ∈ keys d
  · simpa [hm] using h
  · simp [hm, List.nodup_append, h]

theorem noDupKeys_add_dict_step (s : Hist) (kv : String × Int)
    (h : NoDupKeys s) : NoDupKeys (add_dict_step s kv) := by
  cases hs : lookup s kv.1 <;> simp only [add_dict_step, hs] <;>
    exact noDupKeys_setKey _ _ _ h

theorem noDupKeys_add_dict (s t : Hist) (h : NoDupKeys s) :
    NoDupKeys (add_dict s t).1 := by
  induction t generalizing s with
  | nil => exact h
  | cons kv t ih =>
    show NoDupKeys (List.foldl add_dict_step (add_dict_step s kv) t)
    have := ih (add_dict_step s kv) (noDupKeys_add_dict_step s kv h)
    rwa [add_dict] at this

/-! ## Non-negativity and monotonicity of counts -/

theorem mem_setKey (d : Hist) (k : String) (v : Int) (kv' : String × Int)
    (h : kv' ∈ setKey d k v) : kv' ∈ d ∨ kv' = (k, v) := by
  induction d with
  | nil => simpa [setKey] using h
  | cons p rest ih =>
    obtain ⟨k0, v0⟩ := p
    by_cases hk : k0 = k
    · rcases (by simpa [setKey, hk] using h : kv' = (k, v) ∨ kv' ∈ rest) with h' | h'
      · exact Or.inr h'
      · exact Or.inl (List.mem_cons_of_mem _ h')
    · rcases (by simpa [setKey, hk] using h :
          kv' = (k0, v0) ∨ kv' ∈ setKey rest k v) with h' | h'
      · exact Or.inl (by simp [h'])
      · rcases ih h' with h'' | h''
        · exact Or.inl (List.mem_cons_of_mem _ h'')
        · exact Or.inr h''

theorem nonNeg_setKey (d : Hist) (k : String) (v : Int)
    (hd : NonNegCounts d) (hv : 0 ≤ v) : NonNegCounts (setKey d k v) := by
  intro kv' hm
  rcases mem_setKey d k v kv' hm with h | rfl
  · exact hd _ h
  · exact hv

theorem exists_mem_of_lookup_eq_some (d : Hist) (k : String) (v : Int)
    (h : lookup d k = some v) : ∃ p ∈ d, p.2 = v := by
  unfold lookup at h
  cases hf : d.find? (fun p => p.1 == k) with
  | none => rw [hf] at h; simp at h
  | some p =>
    rw [hf] at h
    simp only [Option.map_some', Option.some.injEq] at h
    exact ⟨p, List.mem_of_find?_eq_some hf, h⟩

theorem getCount_nonneg (d : Hist) (w : String) (hd : NonNegCounts d) :
    0 ≤ getCount d w := by
  unfold getCount
  cases hl : lookup d w with
  | none => simp
  | some v =>
    obtain ⟨p, hp, hpv⟩ := exists_mem_of_lookup_eq_some d w v hl
    simpa [hpv] using hd _ hp

theorem nonNeg_counter_incr (d : Hist) (w : String) (hd : NonNegCounts d) :
    NonNegCounts (counter_incr d w) :=
  nonNeg_setKey _ _ _ hd (by have := getCount_nonneg d w hd; omega)

theorem nonNeg_foldl_counter_incr (ws : List String) (d : Hist)
    (hd : NonNegCounts d) : NonNegCounts (ws.foldl counter_incr d) := by
  induction ws generalizing d with
  | nil => exact hd
  | cons a ws ih => exact ih _ (nonNeg_counter_incr d a hd)

theorem getCount_add_dict_step (s : Hist) (kv : String × Int) (w : String) :
    getCount (add_dict_step s kv) w
      = getCount s w + (if kv.1 = w then kv.2 else 0) := by
  unfold getCount
  rw [lookup_add_dict_step]
  by_cases h : kv.1 = w
  · subst h
    simp [getCount]
  · simp [h]

theorem getCount_foldl_add_dict_step_ge (t : List (String × Int))
    (ht : ∀ kv ∈ t, 0 ≤ kv.2) (s : Hist) (w : String) :
    getCount s w ≤ getCount (t.foldl add_dict_step s) w := by
  induction t generalizing s with
  | nil => exact le_refl _
  | cons kv t ih =>
    rw [List.foldl_cons]
    refine le_trans ?_ (ih (fun x hx => ht x (List.mem_cons_of_mem _ hx)) _)
    rw [getCount_add_dict_step]
    have h0 : (0 : Int) ≤ if kv.1 = w then kv.2 else 0 := by
      by_cases h : kv.1 = w
      · simpa [h] using ht kv (List.mem_cons_self _ _)
      · simp [h]
    omega

theorem nonNeg_add_dict_step (s : Hist) (kv : String × Int)
    (hs : NonNegCounts s) (hv : 0 ≤ kv.2) :
    NonNegCounts (add_dict_step s kv) := by
  unfold add_dict_step
  cases hl : lookup s kv.1 with
  | none => exact nonNeg_setKey _ _ _ hs hv
  | some sv =>
    obtain ⟨p, hp, hpv⟩ := exists_mem_of_lookup_eq_some s kv.1 sv hl
    exact nonNeg_setKey _ _ _ hs (add_nonneg (hpv ▸ hs _ hp) hv)

theorem nonNeg_foldl_add_dict_step (t : List (String × Int)) (s : Hist)
    (hs : NonNegCounts s) (ht : ∀ kv ∈ t, 0 ≤ kv.2) :
    NonNegCounts (t.foldl add_dict_step s) := by
  induction t generalizing s with
  | nil => exact hs
  | cons kv t ih =>
    exact ih _ (nonNeg_add_dict_step s kv hs (ht kv (List.mem_cons_self _ _)))
      (fun x hx => ht x (List.mem_cons_of_mem _ hx))

/-! ## Claim theorems: scraping and counting -/

/-- C1: each distinct word of a song's lyric text contributes at most 1 to
the artist's histogram in one `parse_lyrics` song step, regardless of how
many times the word occurs in the song: the words are deduplicated by
`set(lyrics.split())` before `add_counts_to_dict` increments counts. -/
theorem parse_lyrics_counts_each_word_at_most_once
    (page : SongPage) (lyric_dict : Hist) (w : String) :
    getCount (process_song page lyric_dict) w ≤ getCount lyric_dict w + 1 := by
  rw [process_song, getCount_add_counts_to_dict]
  have h : ((remove_common_words page.tokens.dedup).count w : Int) ≤ 1 := by
    exact_mod_cast count_remove_common_words_dedup_le_one page.tokens w
  exact add_le_add_left h _

/-- C2: a stop word never appears as a key of a histogram produced by the
pipeline: `add_counts_to_dict` filters its words through
`remove_common_words` before incrementing, and `add_dict` introduces no key
that is not already in one of its arguments, so a stop word absent from the
initial (empty) histograms never becomes a key. -/
theorem stop_words_never_in_histograms (w : String) (hw : w ∈ stop_words) :
    (∀ (ws : List String) (d : Hist),
        w ∉ keys d → w ∉ keys (add_counts_to_dict ws d)) ∧
    (∀ s t : Hist, w ∉ keys s → w ∉ keys t → w ∉ keys (add_dict s t).1) := by
  constructor
  · intro ws d hd hmem
    rcases mem_keys_foldl_counter_incr _ _ _ hmem with h | h
    · exact hd h
    · have hp := List.of_mem_filter h
      simp at hp
      exact hp hw
  · intro s t hs ht hmem
    rcases (mem_keys_add_dict s t w).mp hmem with h | h
    exacts [hs h, ht h]

/-- C2 witness: the stop word "the" does not become a key when a song
containing it is counted into an empty histogram. -/
theorem stop_words_never_in_histograms_witness :
    "the" ∉ keys (add_counts_to_dict ["the", "dog"] []) :=
  (stop_words_never_in_histograms "the" (by decide)).1 ["the", "dog"] []
    (by decide)

/-- C7: every hit retained by the filter in `collect_genius_song_data` has a
primary-artist name case-insensitively equal to the queried artist's name. -/
theorem filter_hits_only_queried_artist (hits : List Hit) (artist_name : String)
    (x : Hit) (hx : x ∈ filter_hits hits artist_name) :
    str_lower x.primary_artist_name = str_lower artist_name := by
  have hp := List.of_mem_filter hx
  simpa using hp

/-- C7 witness: a mixed-case query retains an exact-artist hit, whose name it
equals after lowercasing. -/
theorem filter_hits_only_queried_artist_witness :
    str_lower (Hit.mk "u1" "Queen").primary_artist_name = str_lower "qUeEn" :=
  filter_hits_only_queried_artist
    [Hit.mk "u1" "Queen", Hit.mk "u2" "Slayer"] "qUeEn" (Hit.mk "u1" "Queen")
    (by decide)

/-! ## Claim theorems: merging -/

/-- C4: `add_dict` is commutative and associative on the resulting
word-to-count mapping: merging in either order, or in either grouping,
yields dictionaries with the same `lookup` at every word (each shared key
mapped to the sum of counts, unshared keys kept).  As lists the results may
order their entries differently, so the claim is about the mapping. -/
theorem add_dict_comm_assoc_as_mapping (a b c : Hist)
    (ha : NoDupKeys a) (hb : NoDupKeys b) (hc : NoDupKeys c) :
    (∀ k, lookup (add_dict a b).1 k = lookup (add_dict b a).1 k) ∧
    (∀ k, lookup (add_dict (add_dict a b).1 c).1 k
        = lookup (add_dict a (add_dict b c).1).1 k) := by
  constructor
  · intro k
    rw [lookup_add_dict a b hb k, lookup_add_dict b a ha k, combine_comm]
  · intro k
    rw [lookup_add_dict _ c hc, lookup_add_dict a b hb,
      lookup_add_dict a _ (noDupKeys_add_dict b c hb),
      lookup_add_dict b c hc, combine_assoc]

/-- C4 witness: commutativity on concrete histograms sharing the key
"love", observed at that key. -/
theorem add_dict_comm_assoc_as_mapping_witness :
    lookup (add_dict [("love", 2)] [("love", 3), ("night", 1)]).1 "love"
      = lookup (add_dict [("love", 3), ("night", 1)] [("love", 2)]).1 "love" :=
  (add_dict_comm_assoc_as_mapping [("love", 2)] [("love", 3), ("night", 1)]
    [("night", 4)] (by unfold NoDupKeys; decide) (by unfold NoDupKeys; decide)
    (by unfold NoDupKeys; decide)).1 "love"

/-- C10: `add_dict` mutates only its first argument: the supplement comes
back unchanged, the merged key set is the union of the two key sets, keys
only in the source keep their counts, and every key of the supplement maps
to its supplement count plus its original source count (`getD 0` reads the
count of an absent key as 0, so a key absent from the source gets the
supplement count alone). -/
theorem add_dict_mutates_only_source (s t : Hist) (ht : NoDupKeys t) :
    (add_dict s t).2 = t ∧
    (∀ k, k ∈ keys (add_dict s t).1 ↔ k ∈ keys s ∨ k ∈ keys t) ∧
    (∀ k, k ∈ keys s → k ∉ keys t → lookup (add_dict s t).1 k = lookup s k) ∧
    (∀ k v, lookup t k = some v →
        lookup (add_dict s t).1 k = some ((lookup s k).getD 0 + v)) := by
  refine ⟨rfl, mem_keys_add_dict s t, ?_, ?_⟩
  · intro k _ hkt
    rw [lookup_add_dict s t ht, (lookup_eq_none_iff t k).mpr hkt,
      combine_none_right]
  · intro k v hv
    rw [lookup_add_dict s t ht, hv, combine_some_right]

/-- C10 witness: on concrete histograms the supplement is returned
unchanged and a shared key gets the sum of its counts. -/
theorem add_dict_mutates_only_source_witness :
    (add_dict [("a", 1)] [("a", 2), ("b", 3)]).2 = [("a", 2), ("b", 3)] ∧
    lookup (add_dict [("a", 1)] [("a", 2), ("b", 3)]).1 "a"
      = some ((lookup [("a", 1)] "a").getD 0 + 2) :=
  ⟨(add_dict_mutates_only_source [("a", 1)] [("a", 2), ("b", 3)]
      (by unfold NoDupKeys; decide)).1,
   (add_dict_mutates_only_source [("a", 1)] [("a", 2), ("b", 3)]
      (by unfold NoDupKeys; decide)).2.2.2 "a" 2 (by decide)⟩

/-- C8: counts stay non-negative and accumulate monotonically: each of the
two operations that touch a histogram (`add_counts_to_dict` and `add_dict`)
preserves non-negativity of all stored counts and never decreases any
word's count (for `add_dict`, provided the supplement's counts are
non-negative, as they are for every histogram built during a run). -/
theorem histogram_counts_nonneg_and_monotone
    (d s t : Hist) (ws : List String) (w : String)
    (hd : NonNegCounts d) (hs : NonNegCounts s) (ht : NonNegCounts t) :
    getCount d w ≤ getCount (add_counts_to_dict ws d) w ∧
    NonNegCounts (add_counts_to_dict ws d) ∧
    getCount s w ≤ getCount (add_dict s t).1 w ∧
    NonNegCounts (add_dict s t).1 := by
  refine ⟨?_, ?_, ?_, ?_⟩
  · rw [getCount_add_counts_to_dict]
    have h0 : (0 : Int) ≤ ((remove_common_words ws).count w : Int) :=
      Int.natCast_nonneg _
    omega
  · exact nonNeg_foldl_counter_incr _ _ hd
  · exact getCount_foldl_add_dict_step_ge t ht s w
  · exact nonNeg_foldl_add_dict_step t s hs ht

/-- C8 witness: on concrete histograms a counted word's count grows and the
merged histogram keeps non-negative counts. -/
theorem histogram_counts_nonneg_and_monotone_witness :
    getCount [("x", 2)] "dog"
      ≤ getCount (add_counts_to_dict ["dog", "dog"] [("x", 2)]) "dog" ∧
    NonNegCounts (add_dict [("a", 1)] [("a", 2), ("b", 3)]).1 := by
  have h := histogram_counts_nonneg_and_monotone [("x", 2)] [("a", 1)]
    [("a", 2), ("b", 3)] ["dog", "dog"] "dog"
    (by unfold NonNegCounts; decide) (by unfold NonNegCounts; decide)
    (by unfold NonNegCounts; decide)
  exact ⟨h.1, h.2.2.2⟩

/-! ## Claim theorems: network requests -/

theorem search_foldl_filterMap {α : Type} (fetch : Nat → NetResult α)
    (l : List Nat) (acc : List α) :
    (l.foldl (fun results page =>
        match send_request (fetch page) with
        | some response => results ++ [response]
        | none => results) acc)
      = acc ++ l.filterMap (fun p => send_request (fetch p)) := by
  induction l generalizing acc with
  | nil => simp
  | cons a l ih =>
    rw [List.foldl_cons]
    cases h : send_request (fetch a) with
    | none => simp [h, ih, List.filterMap_cons]
    | some r => simp [h, ih, List.filterMap_cons]

theorem search_eq_filterMap {α : Type} (fetch : Nat → NetResult α) :
    search fetch = (List.range' 1 5).filterMap (fun p => send_request (fetch p)) := by
  unfold search
  rw [search_foldl_filterMap]
  simp

/-- C9: `search` returns at most 5 results, one per successfully fetched
page among pages 1 through 5, and every returned element is a non-`None`
response: failed pages are omitted, not included as empty entries. -/
theorem search_returns_at_most_five_successes {α : Type}
    (fetch : Nat → NetResult α) :
    (search fetch).length ≤ 5 ∧
    ∀ r ∈ search fetch, ∃ p, 1 ≤ p ∧ p ≤ 5 ∧ fetch p = NetResult.success r := by
  constructor
  · rw [search_eq_filterMap]
    exact le_trans (List.length_filterMap_le _ _) (by simp)
  · intro r hr
    rw [search_eq_filterMap] at hr
    obtain ⟨p, hp, hsend⟩ := List.mem_filterMap.mp hr
    have hmem : p ∈ [1, 2, 3, 4, 5] := by
      have he : List.range' 1 5 = [1, 2, 3, 4, 5] := by decide
      rwa [he] at hp
    have hb : 1 ≤ p ∧ p ≤ 5 := by
      simp only [List.mem_cons, List.not_mem_nil, or_false] at hmem
      omega
    refine ⟨p, hb.1, hb.2, ?_⟩
    cases hf : fetch p with
    | success a =>
      rw [hf] at hsend
      simp only [send_request, Option.some.injEq] at hsend
      rw [hsend]
    | httpError c =>
      rw [hf] at hsend
      simp [send_request] at hsend
    | urlError =>
      rw [hf] at hsend
      simp [send_request] at hsend

/-- C3 counterexample: a failed song-page fetch is NOT treated as a skip by
`parse_lyrics`: `send_request` returns `None` and the unguarded
`html('script')` raises a `TypeError` instead of continuing.  The claim
that every caller continues without raising is therefore false. -/
theorem failed_song_fetch_not_skipped :
    parse_song (NetResult.httpError 404) ([] : Hist)
      = Except.error "TypeError: NoneType object is not callable" := rfl

/-- C3 amended: HTTP and URL errors are caught and logged inside
`send_request`, which returns `None`; the `search` caller skips `None`
responses, so every element it returns comes from a successful fetch; but
`parse_lyrics` does not guard against `None` and raises a `TypeError`
exactly when the song-page fetch fails, instead of skipping. -/
theorem network_errors_caught_but_parse_lyrics_raises :
    (∀ c : Nat, send_request (α := SongPage) (NetResult.httpError c) = none) ∧
    send_request (α := SongPage) NetResult.urlError = none ∧
    (∀ (fetch : Nat → NetResult String) (r : String), r ∈ search fetch →
        ∃ p, fetch p = NetResult.success r) ∧
    (∀ (fetched : NetResult SongPage) (lyric_dict : Hist),
        (∃ msg, parse_song fetched lyric_dict = Except.error msg)
          ↔ send_request fetched = none) := by
  refine ⟨fun c => rfl, rfl, ?_, ?_⟩
  · intro fetch r hr
    rw [search_eq_filterMap] at hr
    obtain ⟨p, _, hsend⟩ := List.mem_filterMap.mp hr
    cases hf : fetch p with
    | success a =>
      rw [hf] at hsend
      simp only [send_request, Option.some.injEq] at hsend
      exact ⟨p, by rw [hf, hsend]⟩
    | httpError c =>
      rw [hf] at hsend
      simp [send_request] at hsend
    | urlError =>
      rw [hf] at hsend
      simp [send_request] at hsend
  · intro fetched lyric_dict
    cases fetched <;> simp [parse_song, send_request]

/-! ## Claim theorems: the `store_results` summaries -/

theorem mergeSort_desc_sorted (counts : Hist) :
    (List.mergeSort counts (fun a b => decide (b.2 ≤ a.2))).Pairwise
      (fun a b : String × Int => b.2 ≤ a.2) := by
  have hs := @List.sorted_mergeSort (String × Int)
    (fun a b => decide (b.2 ≤ a.2))
    (by
      intro a b c hab hbc
      simp only [decide_eq_true_eq] at hab hbc ⊢
      omega)
    (by
      intro a b
      simp only [Bool.or_eq_true, decide_eq_true_eq]
      exact Int.le_total b.2 a.2)
    counts
  exact hs.imp (by intro a b h; simpa using h)

theorem most_common_reverse_mem (counts : Hist) (p : String × Int)
    (hp : p ∈ (most_common counts 100).reverse) : p ∈ counts := by
  rw [List.mem_reverse] at hp
  exact List.mem_mergeSort.mp (List.mem_of_mem_take hp)

theorem most_common_reverse_ascending (counts : Hist) :
    List.Chain' (fun p q : String × Int => p.2 ≤ q.2)
      (most_common counts 100).reverse := by
  have hp : (most_common counts 100).Pairwise
      (fun p q : String × Int => q.2 ≤ p.2) :=
    List.Pairwise.sublist (List.take_sublist 100 _) (mergeSort_desc_sorted counts)
  have hrev : ((most_common counts 100).reverse).Pairwise
      (fun p q : String × Int => p.2 ≤ q.2) := by
    rw [List.pairwise_reverse]
    exact hp
  exact hrev.chain'

theorem most_common_reverse_top (counts : Hist) (p : String × Int)
    (hp : p ∈ counts) (hnp : p ∉ (most_common counts 100).reverse)
    (q : String × Int) (hq : q ∈ (most_common counts 100).reverse) :
    p.2 ≤ q.2 := by
  rw [List.mem_reverse] at hnp hq
  have hpf : p ∈ List.mergeSort counts (fun a b => decide (b.2 ≤ a.2)) :=
    List.mem_mergeSort.mpr hp
  have hpw := mergeSort_desc_sorted counts
  rw [← List.take_append_drop 100
    (List.mergeSort counts (fun a b => decide (b.2 ≤ a.2)))] at hpf hpw
  have hpd : p ∈ (List.mergeSort counts (fun a b => decide (b.2 ≤ a.2))).drop 100 := by
    rcases List.mem_append.mp hpf with h | h
    · exact absurd h hnp
    · exact h
  exact (List.pairwise_append.mp hpw).2.2 q hq p hpd

/-- C5: each summary entry of `store_results` has a data list of at most 100
pairs and at most the number of distinct words of its histogram, and its
`uniques` field equals that number of distinct words (for a well-formed
dict, `len(counts)` is exactly the number of distinct words). -/
theorem store_summary_sizes (artist_name artist_genre genre_name : String)
    (counts : Hist) (h : NoDupKeys counts) :
    ((store_artist_entry artist_name artist_genre counts).data.length ≤ 100 ∧
      (store_artist_entry artist_name artist_genre counts).data.length
        ≤ (keys counts).dedup.length ∧
      (store_artist_entry artist_name artist_genre counts).uniques
        = (keys counts).dedup.length) ∧
    ((store_genre_entry genre_name counts).data.length ≤ 100 ∧
      (store_genre_entry genre_name counts).data.length
        ≤ (keys counts).dedup.length ∧
      (store_genre_entry genre_name counts).uniques
        = (keys counts).dedup.length) := by
  have hded : (keys counts).dedup.length = counts.length := by
    rw [List.Nodup.dedup h]
    simp [keys]
  have hlen : ((most_common counts 100).reverse).length = min 100 counts.length := by
    simp [most_common]
  refine ⟨⟨?_, ?_, ?_⟩, ⟨?_, ?_, ?_⟩⟩
  · show ((most_common counts 100).reverse).length ≤ 100
    rw [hlen]
    exact Nat.min_le_left _ _
  · show ((most_common counts 100).reverse).length ≤ (keys counts).dedup.length
    rw [hlen, hded]
    exact Nat.min_le_right _ _
  · show counts.length = (keys counts).dedup.length
    exact hded.symm
  · show ((most_common counts 100).reverse).length ≤ 100
    rw [hlen]
    exact Nat.min_le_left _ _
  · show ((most_common counts 100).reverse).length ≤ (keys counts).dedup.length
    rw [hlen, hded]
    exact Nat.min_le_right _ _
  · show counts.length = (keys counts).dedup.length
    exact hded.symm

/-- C5 witness: sizes and `uniques` on a concrete two-word histogram. -/
theorem store_summary_sizes_witness :
    (store_artist_entry "Q" "metal" [("a", 1), ("b", 5)]).uniques
      = (keys [("a", 1), ("b", 5)]).dedup.length ∧
    (store_genre_entry "metal" [("a", 1), ("b", 5)]).data.length ≤ 100 := by
  have h := store_summary_sizes "Q" "metal" "metal" [("a", 1), ("b", 5)]
    (by unfold NoDupKeys; decide)
  exact ⟨h.1.2.2, h.2.1⟩

/-- C6: each summary entry's data list consists of entries of the histogram
(the most-common up-to-100 of them: any histogram entry left out counts no
more than any entry kept), and adjacent entries are in ascending count
order, because the most-common list is reversed before being stored. -/
theorem store_summary_data_most_common_ascending
    (artist_name artist_genre genre_name : String) (counts : Hist) :
    ((∀ p ∈ (store_artist_entry artist_name artist_genre counts).data,
        p ∈ counts) ∧
      List.Chain' (fun p q : String × Int => p.2 ≤ q.2)
        (store_artist_entry artist_name artist_genre counts).data ∧
      (∀ p ∈ counts,
        p ∉ (store_artist_entry artist_name artist_genre counts).data →
        ∀ q ∈ (store_artist_entry artist_name artist_genre counts).data,
          p.2 ≤ q.2)) ∧
    ((∀ p ∈ (store_genre_entry genre_name counts).data, p ∈ counts) ∧
      List.Chain' (fun p q : String × Int => p.2 ≤ q.2)
        (store_genre_entry genre_name counts).data ∧
      (∀ p ∈ counts, p ∉ (store_genre_entry genre_name counts).data →
        ∀ q ∈ (store_genre_entry genre_name counts).data, p.2 ≤ q.2)) :=
  ⟨⟨fun p hp => most_common_reverse_mem counts p hp,
    most_common_reverse_ascending counts,
    fun p hp hnp q hq => most_common_reverse_top counts p hp hnp q hq⟩,
   ⟨fun p hp => most_common_reverse_mem counts p hp,
    most_common_reverse_ascending counts,
    fun p hp hnp q hq => most_common_reverse_top counts p hp hnp q hq⟩⟩

end Lyrics
